import Mathlib

/-!
Verification development for the gas-structifier spreadsheet library.

The JavaScript sources are shallowly embedded: spreadsheet cell values and
JSON values are modelled by `JSValue`; fallible JavaScript functions return
`Except`; the network is an oracle mapping the index of the sequential API
call to the raw response body text; the persisted credential is an
`Option String`.  JSON numbers are modelled as rationals (`Rat`), which
represents every decimal numeral exactly.
-/

/-- A JavaScript/JSON value: `undefined`, `null`, booleans, numbers,
strings, arrays, and objects (ordered association lists with unique keys,
as JavaScript objects preserve insertion order for string keys). -/
inductive JSValue where
  | vUndef : JSValue
  | vNull : JSValue
  | vBool : Bool → JSValue
  | vNum : Rat → JSValue
  | vStr : String → JSValue
  | vArr : List JSValue → JSValue
  | vObj : List (String × JSValue) → JSValue

open JSValue

/-- JavaScript truthiness: `undefined`, `null`, `false`, `0` and the empty
string are falsy; every other value (arrays and objects included) is truthy. -/
def truthy : JSValue → Bool
  | vUndef => false
  | vNull => false
  | vBool b => b
  | vNum q => q != 0
  | vStr s => s != ""
  | vArr _ => true
  | vObj _ => true

/-- A value is nullish (`null` or `undefined`): property access on it throws
a TypeError, and optional chaining short-circuits on it. -/
def nullish : JSValue → Bool
  | vUndef => true
  | vNull => true
  | _ => false

/-- Association-list lookup backing object property reads.  Objects are
built through `jsObjSet`, so keys are unique and first-match lookup agrees
with JavaScript's last-assignment-wins semantics. -/
def objGet : List (String × JSValue) → String → JSValue
  | [], _ => vUndef
  | (k, v) :: rest, key => if k = key then v else objGet rest key

/-- JavaScript property assignment `obj[key] = v`: updates the value at an
existing key in place, otherwise appends the key (insertion order). -/
def jsObjSet : List (String × JSValue) → String → JSValue → List (String × JSValue)
  | [], key, v => [(key, v)]
  | (k, w) :: rest, key, v =>
      if k = key then (k, v) :: rest else (k, w) :: jsObjSet rest key v

/-- JavaScript property read `v[key]` on a non-nullish value: objects give
the stored field (or `undefined`), every other value gives `undefined`
(the primitive property reads used in this code never hit a built-in). -/
def jsProp : JSValue → String → JSValue
  | vObj fields, key => objGet fields key
  | _, _ => vUndef

/-- List indexing as JavaScript sees it: out-of-bounds reads give
`undefined`. -/
def jsAt (xs : List JSValue) (i : Nat) : JSValue := (xs[i]?).getD vUndef

/-- JavaScript numeric indexing `v[i]` on a non-nullish value: arrays index
positionally, objects read the property named by the index's decimal
string, everything else gives `undefined`. -/
def jsIdx : JSValue → Nat → JSValue
  | vArr xs, i => jsAt xs i
  | vObj fields, i => objGet fields (toString i)
  | _, _ => vUndef

/-- Optional-chaining property access `v?.key`: `undefined` when `v` is
nullish, an ordinary property read otherwise. -/
def optProp (v : JSValue) (key : String) : JSValue :=
  if nullish v then vUndef else jsProp v key

/-- Optional-chaining index access `v?.[i]`. -/
def optIdx (v : JSValue) (i : Nat) : JSValue :=
  if nullish v then vUndef else jsIdx v i

mutual

/-- JavaScript `String(v)` coercion.  Fractional numbers are rendered as
exact rationals rather than float decimal notation; no property in this
development compares the rendering of a non-integral number. -/
def jsString : JSValue → String
  | vUndef => "undefined"
  | vNull => "null"
  | vBool true => "true"
  | vBool false => "false"
  | vNum q => if q.den == 1 then toString q.num else toString q
  | vStr s => s
  | vArr xs => jsJoin "," xs
  | vObj _ => "[object Object]"

/-- `Array.prototype.join`: elements are coerced with `String(·)` except
that `null` and `undefined` render as the empty string. -/
def jsJoin : String → List JSValue → String
  | _, [] => ""
  | _, [x] => if nullish x then "" else jsString x
  | sep, x :: y :: rest =>
      (if nullish x then "" else jsString x) ++ sep ++ jsJoin sep (y :: rest)

end

/-- The opening-brace character, `\x7b`. -/
def lbrace : Char := Char.ofNat 123

/-- The closing-brace character, `\x7d`. -/
def rbrace : Char := Char.ofNat 125

/-- Skips JSON whitespace (space, tab, newline, carriage return). -/
def skipWs : List Char → List Char
  | [] => []
  | c :: rest =>
      if c = ' ' ∨ c = '\t' ∨ c = '\n' ∨ c = '\r' then skipWs rest else c :: rest

/-- Numeric value of a hexadecimal digit, for `\uXXXX` string escapes. -/
def hexDigitVal (c : Char) : Option Nat :=
  if '0' ≤ c ∧ c ≤ '9' then some (c.toNat - 48)
  else if 'a' ≤ c ∧ c ≤ 'f' then some (c.toNat - 87)
  else if 'A' ≤ c ∧ c ≤ 'F' then some (c.toNat - 55)
  else none

/-- Single-character JSON string escapes (everything except `\u`). -/
def escSimple (c : Char) : Option Char :=
  if c = '"' then some '"'
  else if c = '\\' then some '\\'
  else if c = '/' then some '/'
  else if c = 'b' then some (Char.ofNat 8)
  else if c = 'f' then some (Char.ofNat 12)
  else if c = 'n' then some '\n'
  else if c = 'r' then some (Char.ofNat 13)
  else if c = 't' then some '\t'
  else none

/-- Parses the body of a JSON string after the opening quote, returning the
decoded characters and the remaining input after the closing quote. -/
def parseStringBody : List Char → Option (List Char × List Char)
  | [] => none
  | c :: rest =>
      if c = '"' then some ([], rest)
      else if c = '\\' then
        match rest with
        | 'u' :: h1 :: h2 :: h3 :: h4 :: rest2 => do
            let a ← hexDigitVal h1
            let b ← hexDigitVal h2
            let cc ← hexDigitVal h3
            let d ← hexDigitVal h4
            let (acc, rem) ← parseStringBody rest2
            some (Char.ofNat (((a * 16 + b) * 16 + cc) * 16 + d) :: acc, rem)
        | e :: rest2 => do
            let ec ← escSimple e
            let (acc, rem) ← parseStringBody rest2
            some (ec :: acc, rem)
        | [] => none
      else do
        let (acc, rem) ← parseStringBody rest
        some (c :: acc, rem)

/-- Takes a maximal run of decimal digits, returning their values and the
rest of the input. -/
def takeDigits : List Char → List Nat × List Char
  | [] => ([], [])
  | c :: rest =>
      if '0' ≤ c ∧ c ≤ '9' then
        let (ds, rem) := takeDigits rest
        ((c.toNat - 48) :: ds, rem)
      else ([], c :: rest)

/-- Folds a digit run into the natural number it denotes. -/
def digitsToNat (ds : List Nat) : Nat := ds.foldl (fun a d => a * 10 + d) 0

/-- Parses an optional exponent part after the integer/fraction of a JSON
number, scaling the mantissa accordingly. -/
def parseAfterFrac (m : Rat) (cs : List Char) : Option (Rat × List Char) :=
  match cs with
  | c :: r =>
      if c = 'e' ∨ c = 'E' then
        let (esign, r2) : Int × List Char :=
          match r with
          | e :: r3 => if e = '+' then (1, r3) else if e = '-' then (-1, r3) else (1, r)
          | [] => (1, r)
        match takeDigits r2 with
        | ([], _) => none
        | (eds, rem) => some (m * (10 : Rat) ^ (esign * (digitsToNat eds : Int)), rem)
      else some (m, cs)
  | [] => some (m, [])

/-- Parses an optional fraction part after the integer part of a JSON
number, then the optional exponent. -/
def parseAfterInt (ip : Rat) (cs : List Char) : Option (Rat × List Char) :=
  match cs with
  | c :: r =>
      if c = '.' then
        match takeDigits r with
        | ([], _) => none
        | (fds, rem) =>
            parseAfterFrac (ip + (digitsToNat fds : Rat) / ((10 : Rat) ^ fds.length)) rem
      else parseAfterFrac ip cs
  | [] => parseAfterFrac ip []

/-- Parses a JSON number (optional minus, integer part, optional fraction
and exponent) into an exact rational. -/
def parseNumber (cs : List Char) : Option (Rat × List Char) :=
  match cs with
  | c :: r =>
      if c = '-' then
        match takeDigits r with
        | ([], _) => none
        | (ds, cs2) => (parseAfterInt ((digitsToNat ds : Nat) : Rat) cs2).map
            (fun p => (-p.1, p.2))
      else
        match takeDigits cs with
        | ([], _) => none
        | (ds, cs2) => parseAfterInt ((digitsToNat ds : Nat) : Rat) cs2
  | [] => none

mutual

/-- Fuel-indexed parser for a single JSON value; the fuel strictly bounds
the recursion depth and `jsonParse` supplies enough of it for any input. -/
def parseValue : Nat → List Char → Option (JSValue × List Char)
  | 0, _ => none
  | fuel + 1, cs =>
      match skipWs cs with
      | [] => none
      | c :: rest =>
          if c = '"' then
            (parseStringBody rest).map (fun p => (vStr (String.mk p.1), p.2))
          else if c = lbrace then parseObject fuel rest []
          else if c = '[' then parseArray fuel rest []
          else
            match c :: rest with
            | 'n' :: 'u' :: 'l' :: 'l' :: r => some (vNull, r)
            | 't' :: 'r' :: 'u' :: 'e' :: r => some (vBool true, r)
            | 'f' :: 'a' :: 'l' :: 's' :: 'e' :: r => some (vBool false, r)
            | cs2 => (parseNumber cs2).map (fun p => (vNum p.1, p.2))

/-- Parses the elements of a JSON array after the opening bracket. -/
def parseArray : Nat → List Char → List JSValue → Option (JSValue × List Char)
  | 0, _, _ => none
  | fuel + 1, cs, acc =>
      match skipWs cs with
      | [] => none
      | c :: rest =>
          if c = ']' ∧ acc.isEmpty then some (vArr [], rest)
          else
            match parseValue fuel cs with
            | none => none
            | some (v, rem) =>
                match skipWs rem with
                | [] => none
                | c2 :: rem2 =>
                    if c2 = ',' then parseArray fuel rem2 (acc ++ [v])
                    else if c2 = ']' then some (vArr (acc ++ [v]), rem2)
                    else none

/-- Parses the members of a JSON object after the opening brace; duplicate
keys follow `JSON.parse` semantics (the last occurrence wins) via
`jsObjSet`. -/
def parseObject : Nat → List Char → List (String × JSValue) →
    Option (JSValue × List Char)
  | 0, _, _ => none
  | fuel + 1, cs, acc =>
      match skipWs cs with
      | [] => none
      | c :: rest =>
          if c = rbrace ∧ acc.isEmpty then some (vObj [], rest)
          else if c = '"' then
            match parseStringBody rest with
            | none => none
            | some (kcs, rem) =>
                match skipWs rem with
                | [] => none
                | c3 :: rem3 =>
                    if c3 = ':' then
                      match parseValue fuel rem3 with
                      | none => none
                      | some (v, rem4) =>
                          let acc2 := jsObjSet acc (String.mk kcs) v
                          match skipWs rem4 with
                          | [] => none
                          | c4 :: rem5 =>
                              if c4 = ',' then parseObject fuel rem5 acc2
                              else if c4 = rbrace then some (vObj acc2, rem5)
                              else none
                    else none
          else none

end

/-- `JSON.parse` on a string: parses one JSON value and requires only
whitespace to follow.  The model accepts the JSON number grammar (it does
not re-check the no-leading-zero rule) and represents numbers exactly as
rationals; errors stand for the thrown `SyntaxError`. -/
def jsonParse (s : String) : Except String JSValue :=
  match parseValue (2 * s.length + 2) s.toList with
  | none => Except.error ("Unexpected token in JSON input: " ++ s)
  | some (v, rem) =>
      match skipWs rem with
      | [] => Except.ok v
      | _ => Except.error ("Unexpected non-whitespace character after JSON input: " ++ s)

/-- Index of the last occurrence of `c` in the scanned list (indices offset
by `i`), carried as the best candidate so far. -/
def lastIndexOfAux (c : Char) : List Char → Nat → Option Nat → Option Nat
  | [], _, best => best
  | x :: rest, i, best =>
      lastIndexOfAux c rest (i + 1) (if x = c then some i else best)

/-- Index of the last occurrence of `c` in `cs`, if any. -/
def lastIndexOf (c : Char) (cs : List Char) : Option Nat := lastIndexOfAux c cs 0 none

/-- The regex scan of `parseJSON`'s pattern: at each position, the object
alternative (from an opening brace to the last closing brace in the whole
string, greedily) is tried first, then the array alternative; the first
position where either succeeds wins.  Returns the inclusive index span of
the match. -/
def regexScan (full : List Char) : List Char → Nat → Option (Nat × Nat)
  | [], _ => none
  | c :: rest, i =>
      if c = lbrace then
        match lastIndexOf rbrace full with
        | some j => if i < j then some (i, j) else regexScan full rest (i + 1)
        | none => regexScan full rest (i + 1)
      else if c = '[' then
        match lastIndexOf ']' full with
        | some j => if i < j then some (i, j) else regexScan full rest (i + 1)
        | none => regexScan full rest (i + 1)
      else regexScan full rest (i + 1)

/-- The characters of `cs` from index `i` to index `j`, inclusive. -/
def sliceChars (cs : List Char) (i j : Nat) : List Char := (cs.drop i).take (j - i + 1)

/-- `rawOutput.match(/(\x7b[\s\S]*\x7d|\[[\s\S]*\])/)` from `parseJSON`:
the first (greedy) object-or-array span, if any. -/
def regexMatchJSON (s : String) : Option String :=
  (regexScan s.toList s.toList 0).map (fun p => String.mk (sliceChars s.toList p.1 p.2))

/-- `parseJSON` from `src/util.js` (lines 81-100).  A structured value
(`typeof rawOutput === 'object'`, which includes `null`) is returned
unchanged; a string is matched against the greedy object/array regex and
the span handed to `JSON.parse`; all failures are rethrown as one error
whose message ends with the original raw output. -/
def parseJSON (rawOutput : JSValue) : Except String JSValue :=
  match rawOutput with
  | vObj fields => Except.ok (vObj fields)
  | vArr xs => Except.ok (vArr xs)
  | vNull => Except.ok vNull
  | vStr s =>
      match regexMatchJSON s with
      | none => Except.error
          ("Failed to parse JSON: No valid JSON found in the output.\nOutput received: " ++ s)
      | some span =>
          match jsonParse span with
          | Except.ok v => Except.ok v
          | Except.error msg => Except.error
              ("Failed to parse JSON: " ++ msg ++ "\nOutput received: " ++ s)
  | other => Except.error
      ("Failed to parse JSON: rawOutput.match is not a function\nOutput received: "
        ++ jsString other)

/-- A row of the input range is a two-cell array (`Array.isArray(row) &&
row.length === 2`). -/
def isTwoCellRow : JSValue → Bool
  | vArr cells => cells.length == 2
  | _ => false

/-- The per-row loop of `validateInputRange`: the first row that is not a
two-cell array raises the error. -/
def checkInputRows : List JSValue → Except String Unit
  | [] => Except.ok ()
  | row :: rest =>
      if isTwoCellRow row then checkInputRows rest
      else Except.error
        "Invalid inputRange: Each row must have exactly 2 columns (identifier and input text)."

/-- `validateInputRange` from `src/util.js` (lines 8-18): an absent
(`none`, for a nullish argument) or empty table, or any row that is not a
two-cell array, raises; otherwise nothing is returned. -/
def validateInputRange : Option (List JSValue) → Except String Unit
  | none => Except.error "Invalid inputRange: The input range must contain at least one row."
  | some rows =>
      if rows.isEmpty then
        Except.error "Invalid inputRange: The input range must contain at least one row."
      else checkInputRows rows

/-- Row `i` of a schema table; the validated tables always have the three
rows that are read. -/
def rowAt (table : List (List JSValue)) (i : Nat) : List JSValue := (table[i]?).getD []

/-- `validTypes.includes(cell)` with `===` semantics: only the four exact
strings qualify. -/
def isValidTypeCell : JSValue → Bool
  | vStr s => s == "string" || s == "number" || s == "date" || s == "boolean"
  | _ => false

/-- `validateSchemaRange` from `src/util.js` (lines 28-51): raises when the
table is absent or has fewer than 3 rows, when the first row is empty or
all-falsy, when the third row's length differs from the first row's, or
when any third-row cell is outside the four valid type strings. -/
def validateSchemaRange : Option (List (List JSValue)) → Except String Unit
  | none => Except.error
      "Invalid schemaRange: The schema must have exactly 3 rows (column names, descriptions, and types)."
  | some rows =>
      if rows.length < 3 then
        Except.error
          "Invalid schemaRange: The schema must have exactly 3 rows (column names, descriptions, and types)."
      else
        let columnNames := rowAt rows 0
        if columnNames.isEmpty || columnNames.all (fun cell => !(truthy cell)) then
          Except.error "Invalid schemaRange: The first row (column names) must not be empty."
        else
          let types := rowAt rows 2
          if types.length != columnNames.length then
            Except.error
              "Invalid schemaRange: The third row (types) must have the same number of columns as the first row."
          else if !(types.all isValidTypeCell) then
            Except.error
              "Invalid schemaRange: The third row (types) must contain only the following types: string, number, date, boolean."
          else Except.ok ()

/-- A schema field descriptor `\x7b key, description, type \x7d`; the cells
keep their spreadsheet values. -/
structure FieldDescriptor where
  key : JSValue
  description : JSValue
  type : JSValue

/-- `parseSchema` from `src/util.js` (lines 61-71): zips the key row with
the description and type rows index-wise; an index the description or type
row does not cover reads as `undefined`.  It is only called after
`validateSchemaRange` has passed. -/
def parseSchema (schemaRange : List (List JSValue)) : List FieldDescriptor :=
  let columns := rowAt schemaRange 0
  let descriptions := rowAt schemaRange 1
  let types := rowAt schemaRange 2
  (List.range columns.length).map (fun i =>
    { key := jsAt columns i, description := jsAt descriptions i, type := jsAt types i })

/-- The tail of `SCHEMIFY` in `src/main.js` (lines 200-205): the inverse
tabular form `[keys, descriptions, types]` of a schema. -/
def unparseSchema (schemaArray : List FieldDescriptor) : List (List JSValue) :=
  [schemaArray.map FieldDescriptor.key,
   schemaArray.map FieldDescriptor.description,
   schemaArray.map FieldDescriptor.type]

/-- The `switch (item.type)` of `generateExampleOutput` in `src/util.js`
(lines 112-127): the fixed representative literal for each type string,
with the `"N/A"` placeholder as the default case. -/
def exampleValueForType : JSValue → JSValue
  | vStr s =>
      if s = "string" then vStr "ABC"
      else if s = "number" then vNum 0
      else if s = "boolean" then vBool false
      else if s = "date" then vStr "2023-01-01"
      else vStr "N/A"
  | _ => vStr "N/A"

/-- The `schema.forEach` loop of `generateExampleOutput` (lines 111-128):
assigns `exampleObject[item.key]` for each descriptor in schema order. -/
def generateExampleFields : List FieldDescriptor → List (String × JSValue) →
    List (String × JSValue)
  | [], acc => acc
  | item :: rest, acc =>
      generateExampleFields rest (jsObjSet acc (jsString item.key) (exampleValueForType item.type))

/-- The example object built by `generateExampleOutput` in `src/util.js`
(lines 108-132); the source then returns `JSON.stringify([exampleObject],
null, 2)`, a serialization the claims do not inspect. -/
def generateExampleObject (schema : List FieldDescriptor) : JSValue :=
  vObj (generateExampleFields schema [])

/-- The distinct failures of `callOpenAIStructuredOutputs` in `src/main.js`
(lines 218-271): missing credential (`getOpenAIKey` throws), a response
body that is not JSON (`JSON.parse` throws), a truthy `result.error`
("OpenAI API error"), a truthy refusal signal ("Refusal"), a TypeError from
reading `result.choices[0].message` on a missing envelope part, a falsy
content ("No valid content in the response"), and content that fails to
parse ("Failed to parse JSON content"). -/
inductive ModelError where
  | credentialMissing : ModelError
  | bodyParseError : String → ModelError
  | apiError : JSValue → ModelError
  | refusal : JSValue → ModelError
  | typeError : ModelError
  | noContent : ModelError
  | contentParseError : String → ModelError

/-- `result?.choices?.[0]?.message?.refusal`, the refusal signal read with
optional chaining. -/
def refusalField (result : JSValue) : JSValue :=
  optProp (optProp (optIdx (optProp result "choices") 0) "message") "refusal"

/-- `result.choices[0].message?.content`: the first three accesses are
strict (a nullish link throws a TypeError), only the last is optional. -/
def contentField (result : JSValue) : Except ModelError JSValue :=
  if nullish result then Except.error ModelError.typeError
  else
    let choices := jsProp result "choices"
    if nullish choices then Except.error ModelError.typeError
    else
      let first := jsIdx choices 0
      if nullish first then Except.error ModelError.typeError
      else
        let message := jsProp first "message"
        Except.ok (if nullish message then vUndef else jsProp message "content")

/-- The envelope checks of `callOpenAIStructuredOutputs` (lines 254-270)
on the parsed response body: API error, then refusal, then content
extraction and `JSON.parse(content)`. -/
def processEnvelope (result : JSValue) : Except ModelError JSValue :=
  if truthy (optProp result "error") then
    Except.error (ModelError.apiError (optProp result "error"))
  else if truthy (refusalField result) then
    Except.error (ModelError.refusal (refusalField result))
  else
    match contentField result with
    | Except.error e => Except.error e
    | Except.ok content =>
        if !(truthy content) then Except.error ModelError.noContent
        else
          match jsonParse (jsString content) with
          | Except.ok v => Except.ok v
          | Except.error _ => Except.error (ModelError.contentParseError (jsString content))

/-- `callOpenAIStructuredOutputs` from `src/main.js` (lines 218-271):
`getOpenAIKey` throws first when the stored credential is absent; with
`muteHttpExceptions: true` the HTTP status is never examined, so the rest
depends only on the raw response body text, which is `JSON.parse`d and run
through the envelope checks. -/
def callOpenAIStructuredOutputs (cred : Option String) (responseBody : String) :
    Except ModelError JSValue :=
  match cred with
  | none => Except.error ModelError.credentialMissing
  | some _ =>
      match jsonParse responseBody with
      | Except.error _ => Except.error (ModelError.bodyParseError responseBody)
      | Except.ok result => processEnvelope result

/-- `responseData.choices[0].message.content` read with strict accesses by
the legacy gateway; the content must be a string for `.trim()` to exist. -/
def legacyContent (responseData : JSValue) : Option String :=
  if nullish responseData then none
  else
    let choices := jsProp responseData "choices"
    if nullish choices then none
    else
      let first := jsIdx choices 0
      if nullish first then none
      else
        let message := jsProp first "message"
        if nullish message then none
        else
          match jsProp message "content" with
          | vStr s => some s
          | _ => none

/-- `callOpenAIAPI` from `src/openai.js` (lines 11-55): the credential
check throws outside the `try`; inside it, a non-200 status throws a
message carrying the status and raw body, and every inner failure
(including a missing or non-string content) is caught and rethrown wrapped
in "Failed to call OpenAI API", with no finer classification. -/
def callOpenAIAPI (cred : Option String) (responseCode : Nat) (bodyText : String) :
    Except String String :=
  match cred with
  | none => Except.error "OpenAI API key is not set."
  | some _ =>
      if responseCode != 200 then
        Except.error ("Failed to call OpenAI API: OpenAI API returned an error. HTTP Status: "
          ++ toString responseCode ++ ", Response: " ++ bodyText)
      else
        match jsonParse bodyText with
        | Except.error _ => Except.error "Failed to call OpenAI API: Unexpected token in JSON"
        | Except.ok responseData =>
            match legacyContent responseData with
            | some s => Except.ok s.trim
            | none => Except.error "Failed to call OpenAI API: TypeError"

/-- One row of empty values pushed by `STRUCTIFY`'s catch block:
`[identifier, ...schemaArray.map(() => "")]`. -/
def fallbackRow (schemaArray : List FieldDescriptor) (identifier : JSValue) : List JSValue :=
  identifier :: schemaArray.map (fun _ => vStr "")

/-- `record[s.key]` inside `STRUCTIFY`'s record loop: throws (TypeError)
when the record is nullish, otherwise an ordinary property read with the
key coerced to a string. -/
def recordValue (record : JSValue) (s : FieldDescriptor) : Except Unit JSValue :=
  if nullish record then Except.error () else Except.ok (jsProp record (jsString s.key))

/-- `schemaArray.map(s => record[s.key])`: the Schema-ordered values of one
record; a thrown TypeError aborts the map. -/
def recordValues : List FieldDescriptor → JSValue → Except Unit (List JSValue)
  | [], _ => Except.ok []
  | s :: rest, record =>
      match recordValue record s with
      | Except.error e => Except.error e
      | Except.ok v =>
          match recordValues rest record with
          | Except.error e => Except.error e
          | Except.ok vs => Except.ok (v :: vs)

/-- The `for (const record of structuredDataArray)` loop of `STRUCTIFY`
(lines 91-95): pushes `[identifier, ...rowValues]` per record onto the
already-pushed rows; a throw stops the loop with the rows pushed so far
and the `true` flag (the catch then appends the fallback row). -/
def expandRecords (schemaArray : List FieldDescriptor) (identifier : JSValue)
    (acc : List (List JSValue)) : List JSValue → List (List JSValue) × Bool
  | [] => (acc, false)
  | record :: rest =>
      match recordValues schemaArray record with
      | Except.ok vals => expandRecords schemaArray identifier (acc ++ [identifier :: vals]) rest
      | Except.error _ => (acc, true)

/-- The `try/catch` body of one iteration of `STRUCTIFY`'s row loop (lines
81-101): on a gateway error, a missing/non-array `records`, or a throwing
record access, the catch pushes one fallback row (after any rows already
pushed); otherwise one row per record is pushed. -/
def processRow (callResult : Except ModelError JSValue)
    (schemaArray : List FieldDescriptor) (row : JSValue) : List (List JSValue) :=
  let identifier := jsIdx row 0
  match callResult with
  | Except.error _ => [fallbackRow schemaArray identifier]
  | Except.ok responseObject =>
      match optProp responseObject "records" with
      | vArr rs =>
          let expanded := expandRecords schemaArray identifier [] rs
          if expanded.2 then expanded.1 ++ [fallbackRow schemaArray identifier]
          else expanded.1
      | _ => [fallbackRow schemaArray identifier]

/-- `STRUCTIFY`'s row loop (lines 68-102) with its `resultRows`
accumulator: row `i`'s gateway call is the `i`-th sequential API call. -/
def structifyGo (call : Nat → Except ModelError JSValue)
    (schemaArray : List FieldDescriptor) :
    Nat → List JSValue → List (List JSValue) → List (List JSValue)
  | _, [], acc => acc
  | i, row :: rest, acc =>
      structifyGo call schemaArray (i + 1) rest (acc ++ processRow (call i) schemaArray row)

/-- The same loop written without the accumulator: the concatenation, in
input order, of each row's block of output rows. -/
def processRowsFrom (call : Nat → Except ModelError JSValue)
    (schemaArray : List FieldDescriptor) : Nat → List JSValue → List (List JSValue)
  | _, [] => []
  | i, row :: rest =>
      processRow (call i) schemaArray row ++ processRowsFrom call schemaArray (i + 1) rest

/-- `STRUCTIFY` from `src/main.js` (lines 12-106): validates both tables,
parses the schema, processes each input row against the gateway (the
prompt and JSON-schema construction of lines 21-79 only shape the request
the network oracle answers), and joins the result rows with the column and
row separators. -/
def STRUCTIFY (cred : Option String) (net : Nat → String)
    (inputRange : Option (List JSValue)) (schemaRange : Option (List (List JSValue)))
    (rowSeparator columnSeparator : String) : Except String String :=
  match validateInputRange inputRange with
  | Except.error e => Except.error e
  | Except.ok _ =>
      match validateSchemaRange schemaRange with
      | Except.error e => Except.error e
      | Except.ok _ =>
          let rows := inputRange.getD []
          let schemaArray := parseSchema (schemaRange.getD [])
          let resultRows := structifyGo
            (fun i => callOpenAIStructuredOutputs cred (net i)) schemaArray 0 rows []
          Except.ok (String.intercalate rowSeparator
            (resultRows.map (fun row => jsJoin columnSeparator row)))

/-- Well-formed input table: present, non-empty, and every row a two-cell
array. -/
def InputRangeWF (inputRange : Option (List JSValue)) : Prop :=
  ∃ rows, inputRange = some rows ∧ rows ≠ [] ∧ ∀ row ∈ rows, isTwoCellRow row = true

/-- Well-formed key row: non-empty and not all-blank (some cell truthy). -/
def KeyRowOK (columnNames : List JSValue) : Prop :=
  columnNames ≠ [] ∧ ∃ cell ∈ columnNames, truthy cell = true

/-- Well-formed type row: same length as the key row and every cell one of
the four valid type strings. -/
def TypeRowOK (types columnNames : List JSValue) : Prop :=
  types.length = columnNames.length ∧ ∀ cell ∈ types, isValidTypeCell cell = true

/-- Well-formed schema table: present, at least 3 rows, valid key row and
valid type row. -/
def SchemaRangeWF (schemaRange : Option (List (List JSValue))) : Prop :=
  ∃ rows, schemaRange = some rows ∧ 3 ≤ rows.length ∧
    KeyRowOK (rowAt rows 0) ∧ TypeRowOK (rowAt rows 2) (rowAt rows 0)

theorem checkInputRows_ok_iff (rows : List JSValue) :
    checkInputRows rows = Except.ok () ↔ ∀ row ∈ rows, isTwoCellRow row = true := by
  induction rows with
  | nil => simp [checkInputRows]
  | cons row rest ih =>
      by_cases h : isTwoCellRow row = true
      · simp [checkInputRows, h, ih]
      · simp [checkInputRows, h]

theorem validateInputRange_ok_iff (t : Option (List JSValue)) :
    validateInputRange t = Except.ok () ↔ InputRangeWF t := by
  cases t with
  | none => simp [validateInputRange, InputRangeWF]
  | some rows =>
      by_cases h : rows.isEmpty
      · have hrows : rows = [] := List.isEmpty_iff.mp h
        simp [validateInputRange, InputRangeWF, hrows]
      · have hne : rows ≠ [] := by
          intro hcon
          exact h (by simp [hcon])
        simp [validateInputRange, InputRangeWF, h, checkInputRows_ok_iff, hne]

theorem validateSchemaRange_ok_iff (t : Option (List (List JSValue))) :
    validateSchemaRange t = Except.ok () ↔ SchemaRangeWF t := by
  cases t with
  | none => simp [validateSchemaRange, SchemaRangeWF]
  | some rows =>
      simp only [validateSchemaRange, SchemaRangeWF, Option.some.injEq]
      by_cases h1 : rows.length < 3
      · refine iff_of_false (by simp [h1]) ?_
        rintro ⟨rows', rfl, hlen, -⟩
        omega
      · simp only [h1, if_false]
        by_cases h2 : (rowAt rows 0).isEmpty ||
            (rowAt rows 0).all (fun cell => !(truthy cell))
        · refine iff_of_false (by simp [h2]) ?_
          rintro ⟨rows', rfl, -, ⟨hne, cell, hmem, htru⟩, -⟩
          rcases Bool.or_eq_true_iff.mp h2 with hcase | hcase
          · exact hne (List.isEmpty_iff.mp hcase)
          · have := List.all_eq_true.mp hcase cell hmem
            simp [htru] at this
        · simp only [h2, if_false]
          by_cases h3 : (rowAt rows 2).length != (rowAt rows 0).length
          · refine iff_of_false (by simp [h3]) ?_
            rintro ⟨rows', rfl, -, -, hlen, -⟩
            simp [hlen] at h3
          · simp only [h3, if_false]
            by_cases h4 : (rowAt rows 2).all isValidTypeCell
            · refine iff_of_true (by simp [h4]) ?_
              refine ⟨rows, rfl, by omega, ?_, ?_⟩
              · constructor
                · intro hcon
                  simp [hcon] at h2
                · by_contra hcon
                  push_neg at hcon
                  have : (rowAt rows 0).all (fun cell => !(truthy cell)) = true := by
                    refine List.all_eq_true.mpr ?_
                    intro cell hmem
                    have := hcon cell hmem
                    simp at this ⊢
                    exact this
                  simp [this] at h2
              · refine ⟨?_, List.all_eq_true.mp h4⟩
                simpa using h3
            · refine iff_of_false (by simp [h4]) ?_
              rintro ⟨rows', rfl, -, -, -, hall⟩
              exact h4 (List.all_eq_true.mpr hall)

/-- C1: `validateInputRange` raises exactly on an absent or empty input
table or a row that is not a two-cell pair, and `validateSchemaRange`
raises exactly on a table with fewer than 3 rows, an empty or all-blank
key row, a type-row length mismatch, or a type cell outside
\x7bstring, number, date, boolean\x7d; both are pure and on success return
only `()`. -/
theorem validators_accept_iff_wellformed (inputRange : Option (List JSValue))
    (schemaRange : Option (List (List JSValue))) :
    (validateInputRange inputRange = Except.ok () ↔ InputRangeWF inputRange) ∧
    (validateSchemaRange schemaRange = Except.ok () ↔ SchemaRangeWF schemaRange) :=
  ⟨validateInputRange_ok_iff inputRange, validateSchemaRange_ok_iff schemaRange⟩

/-- C4: parsing the tabular form `[keys, descriptions, types]` of any
schema yields back exactly the same ordered list of
`\x7bkey, description, type\x7d` descriptors. -/
theorem parseSchema_unparseSchema (s : List FieldDescriptor) :
    parseSchema (unparseSchema s) = s := by
  have h0 : rowAt (unparseSchema s) 0 = s.map FieldDescriptor.key := rfl
  have h1 : rowAt (unparseSchema s) 1 = s.map FieldDescriptor.description := rfl
  have h2 : rowAt (unparseSchema s) 2 = s.map FieldDescriptor.type := rfl
  simp only [parseSchema, h0, h1, h2, List.length_map]
  apply List.ext_getElem?
  intro i
  by_cases h : i < s.length
  · have hg : s[i]? = some s[i] := List.getElem?_eq_getElem h
    simp [List.getElem?_range, h, jsAt, List.getElem?_map, hg]
  · have hge : s.length ≤ i := Nat.le_of_not_lt h
    simp [List.getElem?_range, h, List.getElem?_eq_none hge]
    exact hge

/-- C10: `validateSchemaRange` reads only the key row and the type row —
for any description row whatsoever (any length, any contents) a table with
at least 3 rows, a valid key row and a valid type row passes — and
`parseSchema` fills `description` with `undefined` at every index the
description row does not cover. -/
theorem validateSchemaRange_ignores_description_row
    (keys descRow types : List JSValue) (rest : List (List JSValue))
    (hk : KeyRowOK keys) (ht : TypeRowOK types keys) :
    validateSchemaRange (some (keys :: descRow :: types :: rest)) = Except.ok () ∧
    ∀ i, i < keys.length → descRow.length ≤ i →
      (parseSchema (keys :: descRow :: types :: rest))[i]? =
        some { key := jsAt keys i, description := vUndef, type := jsAt types i } := by
  have hrow0 : rowAt (keys :: descRow :: types :: rest) 0 = keys := by simp [rowAt]
  have hrow1 : rowAt (keys :: descRow :: types :: rest) 1 = descRow := by simp [rowAt]
  have hrow2 : rowAt (keys :: descRow :: types :: rest) 2 = types := by simp [rowAt]
  constructor
  · exact (validateSchemaRange_ok_iff _).mpr
      ⟨keys :: descRow :: types :: rest, rfl, by simp, by rw [hrow0]; exact hk,
        by rw [hrow0, hrow2]; exact ht⟩
  · intro i hi hd
    have hdesc : jsAt descRow i = vUndef := by
      simp [jsAt, List.getElem?_eq_none hd]
    simp [parseSchema, hrow0, hrow1, hrow2, List.getElem?_range, hi, hdesc]

/-- Witness for C10 at a concrete table whose description row is empty. -/
theorem validateSchemaRange_ignores_description_row_witness :
    validateSchemaRange (some [[vStr "name"], [], [vStr "string"]]) = Except.ok () ∧
    (parseSchema [[vStr "name"], [], [vStr "string"]])[0]? =
      some { key := vStr "name", description := vUndef, type := vStr "string" } := by
  have h := validateSchemaRange_ignores_description_row [vStr "name"] [] [vStr "string"] []
    ⟨by simp, vStr "name", by simp, rfl⟩ ⟨rfl, by simp [isValidTypeCell]⟩
  refine ⟨h.1, ?_⟩
  have h2 := h.2 0 (by simp) (by simp)
  simpa [jsAt] using h2

theorem structifyGo_eq_append (call : Nat → Except ModelError JSValue)
    (schemaArray : List FieldDescriptor) :
    ∀ (rows : List JSValue) (i : Nat) (acc : List (List JSValue)),
      structifyGo call schemaArray i rows acc =
        acc ++ processRowsFrom call schemaArray i rows := by
  intro rows
  induction rows with
  | nil => intro i acc; simp [structifyGo, processRowsFrom]
  | cons row rest ih =>
      intro i acc
      simp [structifyGo, processRowsFrom, ih]

theorem recordValues_of_not_nullish (schemaArray : List FieldDescriptor)
    (record : JSValue) (h : nullish record = false) :
    recordValues schemaArray record =
      Except.ok (schemaArray.map (fun s => jsProp record (jsString s.key))) := by
  induction schemaArray with
  | nil => rfl
  | cons s rest ih =>
      simp [recordValues, recordValue, h, ih]

theorem expandRecords_all_ok (schemaArray : List FieldDescriptor) (identifier : JSValue) :
    ∀ (rs : List JSValue), (∀ r ∈ rs, nullish r = false) →
    ∀ (acc : List (List JSValue)),
      expandRecords schemaArray identifier acc rs =
        (acc ++ rs.map (fun r =>
          identifier :: schemaArray.map (fun s => jsProp r (jsString s.key))), false) := by
  intro rs
  induction rs with
  | nil => intro _ acc; simp [expandRecords]
  | cons r rest ih =>
      intro h acc
      have hr : nullish r = false := h r (by simp)
      have hrest : ∀ x ∈ rest, nullish x = false := fun x hx => h x (by simp [hx])
      simp [expandRecords, recordValues_of_not_nullish _ _ hr, ih hrest]

/-- C6: the output rows are the concatenation, in input-row order, of each
input row's block; and a successful row whose `records` are all
non-nullish expands into one output row per record, in the order the model
returned them, each row being the identifier followed by the record's
values in schema field order (so two records share the identifier across
two rows). -/
theorem structify_output_ordering (call : Nat → Except ModelError JSValue)
    (schemaArray : List FieldDescriptor) (rows : List JSValue) :
    structifyGo call schemaArray 0 rows [] = processRowsFrom call schemaArray 0 rows ∧
    (∀ (i : Nat) (row : JSValue) (rest : List JSValue),
      processRowsFrom call schemaArray i (row :: rest) =
        processRow (call i) schemaArray row ++ processRowsFrom call schemaArray (i + 1) rest) ∧
    (∀ (i : Nat) (row resp : JSValue) (rs : List JSValue),
      call i = Except.ok resp → optProp resp "records" = vArr rs →
      (∀ r ∈ rs, nullish r = false) →
      processRow (call i) schemaArray row =
        rs.map (fun r => jsIdx row 0 :: schemaArray.map (fun s => jsProp r (jsString s.key)))) := by
  refine ⟨by simpa using structifyGo_eq_append call schemaArray rows 0 [], fun _ _ _ => rfl, ?_⟩
  intro i row resp rs hcall hrec hnn
  simp [processRow, hcall, hrec, expandRecords_all_ok schemaArray (jsIdx row 0) rs hnn]

/-- Witness for C6: one input row whose response carries two records
expands into two output rows sharing the identifier, in model order. -/
theorem structify_output_ordering_witness :
    processRow
        (Except.ok (vObj [("records",
          vArr [vObj [("name", vStr "A")], vObj [("name", vStr "B")]])]))
        [⟨vStr "name", vStr "d", vStr "string"⟩] (vArr [vStr "ID_1", vStr "text"]) =
      [[vStr "ID_1", vStr "A"], [vStr "ID_1", vStr "B"]] := by
  have h := (structify_output_ordering
      (fun _ => Except.ok (vObj [("records",
        vArr [vObj [("name", vStr "A")], vObj [("name", vStr "B")]])]))
      [⟨vStr "name", vStr "d", vStr "string"⟩]
      [vArr [vStr "ID_1", vStr "text"]]).2.2 0 (vArr [vStr "ID_1", vStr "text"])
      (vObj [("records", vArr [vObj [("name", vStr "A")], vObj [("name", vStr "B")]])])
      [vObj [("name", vStr "A")], vObj [("name", vStr "B")]]
      rfl rfl (by intro r hr; simp at hr; rcases hr with rfl | rfl <;> rfl)
  simpa [jsIdx, jsAt, jsProp, objGet, jsString] using h

/-- C5: a row whose gateway call fails, or whose successful response does
not hold an array at `records`, contributes exactly one output row — the
identifier followed by one empty string per schema field — and the loop
still emits every row's block (one bad row never aborts the batch). -/
theorem structify_failed_row_single_fallback (call : Nat → Except ModelError JSValue)
    (schemaArray : List FieldDescriptor) (rows : List JSValue) (i : Nat) (row : JSValue)
    (hfail : ∀ resp, call i = Except.ok resp → ∀ rs, optProp resp "records" ≠ vArr rs) :
    processRow (call i) schemaArray row =
      [jsIdx row 0 :: schemaArray.map (fun _ => vStr "")] ∧
    structifyGo call schemaArray 0 rows [] = processRowsFrom call schemaArray 0 rows := by
  refine ⟨?_, by simpa using structifyGo_eq_append call schemaArray rows 0 []⟩
  cases hcall : call i with
  | error e => simp [processRow, fallbackRow]
  | ok resp =>
      have hne := hfail resp hcall
      cases hrec : optProp resp "records"
      case vArr rs => exact absurd hrec (hne rs)
      all_goals simp [processRow, hrec, fallbackRow]

/-- Witness for C5: an erroring gateway call yields the single empty row. -/
theorem structify_failed_row_single_fallback_witness :
    processRow ((fun _ => Except.error (ModelError.apiError vNull)) 0)
        [⟨vStr "name", vStr "d", vStr "string"⟩] (vArr [vStr "ID_1", vStr "text"]) =
      [[vStr "ID_1", vStr ""]] := by
  have h := (structify_failed_row_single_fallback
      (fun _ => Except.error (ModelError.apiError vNull))
      [⟨vStr "name", vStr "d", vStr "string"⟩] [vArr [vStr "ID_1", vStr "text"]] 0
      (vArr [vStr "ID_1", vStr "text"])
      (fun resp h => absurd h (by simp))).1
  simpa [jsIdx, jsAt] using h

theorem processRowsFrom_all_error (call : Nat → Except ModelError JSValue)
    (schemaArray : List FieldDescriptor)
    (herr : ∀ i, ∃ e, call i = Except.error e) :
    ∀ (rows : List JSValue) (k : Nat),
      processRowsFrom call schemaArray k rows =
        rows.map (fun row => fallbackRow schemaArray (jsIdx row 0)) := by
  intro rows
  induction rows with
  | nil => intro k; rfl
  | cons row rest ih =>
      intro k
      obtain ⟨e, he⟩ := herr k
      simp [processRowsFrom, processRow, he, ih]

/-- C2 counterexample: with no stored credential, a valid one-row input and
a valid schema, `STRUCTIFY` does not abort — it returns successfully with
the row's fallback row (identifier and one empty value). -/
theorem structify_missing_credential_counterexample :
    STRUCTIFY none (fun _ => "") (some [vArr [vStr "ID_1", vStr "John"]])
      (some [[vStr "name"], [vStr "the name"], [vStr "string"]]) "|" "," =
      Except.ok "ID_1," := by rfl

/-- C2 (amended): with no stored credential, every per-row gateway call
fails inside the row's `try/catch` with the missing-key error, so
`STRUCTIFY` completes successfully and returns exactly one empty fallback
row per input row; only the gateway itself aborts before any network
traffic. -/
theorem structify_missing_credential_all_fallback (net : Nat → String)
    (rows : List JSValue) (table : List (List JSValue)) (rowSep colSep : String)
    (hin : validateInputRange (some rows) = Except.ok ())
    (hsch : validateSchemaRange (some table) = Except.ok ()) :
    (∀ body, callOpenAIStructuredOutputs none body =
        Except.error ModelError.credentialMissing) ∧
    STRUCTIFY none net (some rows) (some table) rowSep colSep =
      Except.ok (String.intercalate rowSep (rows.map (fun row =>
        jsJoin colSep (fallbackRow (parseSchema table) (jsIdx row 0))))) := by
  refine ⟨fun _ => rfl, ?_⟩
  have herr : ∀ i, ∃ e, (fun i => callOpenAIStructuredOutputs none (net i)) i =
      Except.error e := fun i => ⟨ModelError.credentialMissing, rfl⟩
  simp only [STRUCTIFY, hin, hsch, Option.getD_some]
  rw [structifyGo_eq_append, processRowsFrom_all_error _ _ herr rows 0]
  simp only [List.nil_append, List.map_map]
  rfl

/-- Witness for C2 (amended) at the concrete one-row call. -/
theorem structify_missing_credential_all_fallback_witness :
    STRUCTIFY none (fun _ => "irrelevant") (some [vArr [vStr "ID_1", vStr "John"]])
      (some [[vStr "name", vStr "age"], [vStr "d1", vStr "d2"],
        [vStr "string", vStr "number"]]) "|" "," = Except.ok "ID_1,," := by
  have h := (structify_missing_credential_all_fallback (fun _ => "irrelevant")
    [vArr [vStr "ID_1", vStr "John"]]
    [[vStr "name", vStr "age"], [vStr "d1", vStr "d2"], [vStr "string", vStr "number"]]
    "|" "," rfl rfl).2
  simpa using h

theorem processRowsFrom_eq_nil (call : Nat → Except ModelError JSValue)
    (schemaArray : List FieldDescriptor) :
    ∀ (rows : List JSValue) (k : Nat),
      (∀ j row, rows[j]? = some row →
        processRow (call (k + j)) schemaArray row = []) →
      processRowsFrom call schemaArray k rows = [] := by
  intro rows
  induction rows with
  | nil => intro k _; rfl
  | cons row rest ih =>
      intro k h
      have h0 : processRow (call k) schemaArray row = [] := by
        simpa using h 0 row (by simp)
      have hrest : processRowsFrom call schemaArray (k + 1) rest = [] := by
        refine ih (k + 1) ?_
        intro j row' hj
        have := h (j + 1) row' (by simpa using hj)
        have harith : k + (j + 1) = k + 1 + j := by omega
        rwa [harith] at this
      simp [processRowsFrom, h0, hrest]

/-- C9: a successful response whose `records` is the empty array expands a
row into zero output rows (no placeholder, no error), and when every row's
response is like that on a valid non-empty input, `STRUCTIFY` returns the
empty string. -/
theorem structify_empty_records (cred : Option String) (net : Nat → String)
    (rows : List JSValue) (table : List (List JSValue)) (rowSep colSep : String)
    (hin : validateInputRange (some rows) = Except.ok ())
    (hsch : validateSchemaRange (some table) = Except.ok ())
    (hresp : ∀ j row, rows[j]? = some row → ∃ resp,
      callOpenAIStructuredOutputs cred (net j) = Except.ok resp ∧
      optProp resp "records" = vArr []) :
    (∀ (callResult : Except ModelError JSValue) (resp row : JSValue),
      callResult = Except.ok resp → optProp resp "records" = vArr [] →
      processRow callResult (parseSchema table) row = []) ∧
    STRUCTIFY cred net (some rows) (some table) rowSep colSep = Except.ok "" := by
  have hrow : ∀ (callResult : Except ModelError JSValue) (resp row : JSValue),
      callResult = Except.ok resp → optProp resp "records" = vArr [] →
      processRow callResult (parseSchema table) row = [] := by
    intro callResult resp row hcall hrec
    subst hcall
    simp [processRow, hrec, expandRecords]
  refine ⟨hrow, ?_⟩
  simp only [STRUCTIFY, hin, hsch, Option.getD_some]
  rw [structifyGo_eq_append, processRowsFrom_eq_nil]
  · rfl
  · intro j row hj
    obtain ⟨resp, hcall, hrec⟩ := hresp j row hj
    simpa using hrow _ resp row hcall hrec

/-- Witness for C9: one input row, a well-formed envelope whose content is
an empty `records` array, and the resulting empty-string output. -/
theorem structify_empty_records_witness :
    STRUCTIFY (some "sk-key")
      (fun _ => "\x7b\"choices\":[\x7b\"message\":\x7b\"content\":\"\x7b\\\"records\\\":[]\x7d\"\x7d\x7d]\x7d")
      (some [vArr [vStr "ID_1", vStr "some text"]])
      (some [[vStr "name"], [vStr "the name"], [vStr "string"]]) "|" "," =
      Except.ok "" := by
  exact (structify_empty_records (some "sk-key")
    (fun _ => "\x7b\"choices\":[\x7b\"message\":\x7b\"content\":\"\x7b\\\"records\\\":[]\x7d\"\x7d\x7d]\x7d")
    [vArr [vStr "ID_1", vStr "some text"]]
    [[vStr "name"], [vStr "the name"], [vStr "string"]] "|" "," rfl rfl
    (fun j row hj => ⟨vObj [("records", vArr [])], by rfl, by rfl⟩)).2

/-- C3 counterexample: on text holding two separate objects the greedy
regex matches from the first opening brace to the last closing brace, a
span that is not valid JSON, so `parseJSON` fails — even though the first
balanced span exists and parses fine. -/
theorem parseJSON_not_first_balanced_span :
    regexMatchJSON "a \x7b\"x\":1\x7d b \x7b\"y\":2\x7d c" =
      some "\x7b\"x\":1\x7d b \x7b\"y\":2\x7d" ∧
    jsonParse "\x7b\"x\":1\x7d" = Except.ok (vObj [("x", vNum 1)]) ∧
    (parseJSON (vStr "a \x7b\"x\":1\x7d b \x7b\"y\":2\x7d c")).toOption = none :=
  ⟨rfl, rfl, rfl⟩

/-- C3 (amended): `parseJSON` is the identity on structured values
(objects, arrays — and `null`, whose `typeof` is also "object"); on text
it matches the span running from the first opening bracket position
(object alternative first) greedily to the last closing bracket of that
kind and hands it to `JSON.parse` — on `"noise \x7b\"a\":1\x7d noise"`
this yields `\x7ba:1\x7d` — and it fails with an error carrying the
original raw text when no span is found or the greedy span fails to
parse. -/
theorem parseJSON_spec (s : String) (fields : List (String × JSValue))
    (xs : List JSValue) :
    parseJSON (vObj fields) = Except.ok (vObj fields) ∧
    parseJSON (vArr xs) = Except.ok (vArr xs) ∧
    parseJSON (vStr "noise \x7b\"a\":1\x7d noise") = Except.ok (vObj [("a", vNum 1)]) ∧
    (regexMatchJSON s = none → parseJSON (vStr s) = Except.error
      ("Failed to parse JSON: No valid JSON found in the output.\nOutput received: " ++ s)) ∧
    (∀ span v, regexMatchJSON s = some span → jsonParse span = Except.ok v →
      parseJSON (vStr s) = Except.ok v) ∧
    (∀ span e, regexMatchJSON s = some span → jsonParse span = Except.error e →
      ∃ p, parseJSON (vStr s) = Except.error (p ++ s)) := by
  refine ⟨rfl, rfl, rfl, ?_, ?_, ?_⟩
  · intro h
    simp [parseJSON, h]
  · intro span v h1 h2
    simp [parseJSON, h1, h2]
  · intro span e h1 h2
    exact ⟨"Failed to parse JSON: " ++ e ++ "\nOutput received: ",
      by simp [parseJSON, h1, h2]⟩

/-- Witness for C3 (amended): the no-span branch at a concrete input with
no brackets, alongside the concrete extraction example. -/
theorem parseJSON_spec_witness :
    parseJSON (vStr "no json here") = Except.error
      ("Failed to parse JSON: No valid JSON found in the output.\nOutput received: "
        ++ "no json here") ∧
    parseJSON (vStr "noise \x7b\"a\":1\x7d noise") = Except.ok (vObj [("a", vNum 1)]) :=
  ⟨(parseJSON_spec "no json here" [] []).2.2.2.1 rfl,
   (parseJSON_spec "" [] []).2.2.1⟩

/-- C7 counterexample: a transport failure whose body is not JSON (a plain
500 page) surfaces from the structured gateway as the raw body-parse error
— no ApiError, no HTTP status, which the gateway never examines — and the
legacy gateway turns an explicit refusal envelope into its generic wrapped
error instead of a distinct refusal classification. -/
theorem gateway_classification_counterexample :
    callOpenAIStructuredOutputs (some "sk-key") "Internal Server Error" =
      Except.error (ModelError.bodyParseError "Internal Server Error") ∧
    callOpenAIAPI (some "sk-key") 200
      "\x7b\"choices\":[\x7b\"message\":\x7b\"refusal\":\"I cannot help\",\"content\":null\x7d\x7d]\x7d" =
      Except.error "Failed to call OpenAI API: TypeError" :=
  ⟨rfl, rfl⟩

/-- C7 (amended): the structured-outputs gateway classifies the parsed
envelope distinctly — a truthy `error` field gives the API error carrying
that payload (never the HTTP status, which `muteHttpExceptions` hides), a
truthy refusal signal gives the refusal error, an accessible but falsy
content gives the no-content error, and a parseable truthy content is
returned without swallowing any failure; a missing credential aborts
before any of this; the legacy gateway is the one that reports the HTTP
status and raw body on a non-200 response. -/
theorem gateway_error_classification (result : JSValue) :
    (truthy (optProp result "error") = true →
      processEnvelope result = Except.error (ModelError.apiError (optProp result "error"))) ∧
    (truthy (optProp result "error") = false → truthy (refusalField result) = true →
      processEnvelope result = Except.error (ModelError.refusal (refusalField result))) ∧
    (∀ content, truthy (optProp result "error") = false →
      truthy (refusalField result) = false → contentField result = Except.ok content →
      truthy content = false → processEnvelope result = Except.error ModelError.noContent) ∧
    (∀ content v, truthy (optProp result "error") = false →
      truthy (refusalField result) = false → contentField result = Except.ok content →
      truthy content = true → jsonParse (jsString content) = Except.ok v →
      processEnvelope result = Except.ok v) ∧
    (∀ body, callOpenAIStructuredOutputs none body =
      Except.error ModelError.credentialMissing) ∧
    (∀ k code body, code ≠ 200 → callOpenAIAPI (some k) code body =
      Except.error ("Failed to call OpenAI API: OpenAI API returned an error. HTTP Status: "
        ++ toString code ++ ", Response: " ++ body)) := by
  refine ⟨?_, ?_, ?_, ?_, fun _ => rfl, ?_⟩
  · intro h
    simp [processEnvelope, h]
  · intro h1 h2
    simp [processEnvelope, h1, h2]
  · intro content h1 h2 h3 h4
    simp [processEnvelope, h1, h2, h3, h4]
  · intro content v h1 h2 h3 h4 h5
    simp [processEnvelope, h1, h2, h3, h4, h5]
  · intro k code body h
    simp [callOpenAIAPI, h]

/-- Witness for C7 (amended): each classified branch exercised at a
concrete envelope. -/
theorem gateway_error_classification_witness :
    processEnvelope (vObj [("error", vStr "boom")]) =
      Except.error (ModelError.apiError (vStr "boom")) ∧
    processEnvelope (vObj [("choices", vArr [vObj [("message",
        vObj [("refusal", vStr "nope"), ("content", vNull)])]])]) =
      Except.error (ModelError.refusal (vStr "nope")) ∧
    processEnvelope (vObj [("choices", vArr [vObj [("message",
        vObj [("content", vStr "")])]])]) =
      Except.error ModelError.noContent ∧
    processEnvelope (vObj [("choices", vArr [vObj [("message",
        vObj [("content", vStr "\x7b\"a\":1\x7d")])]])]) =
      Except.ok (vObj [("a", vNum 1)]) ∧
    callOpenAIStructuredOutputs none "anything" =
      Except.error ModelError.credentialMissing ∧
    callOpenAIAPI (some "sk-key") 500 "oops" =
      Except.error ("Failed to call OpenAI API: OpenAI API returned an error. HTTP Status: "
        ++ toString 500 ++ ", Response: " ++ "oops") := by
  refine ⟨?_, ?_, ?_, ?_, ?_, ?_⟩
  · simpa using (gateway_error_classification (vObj [("error", vStr "boom")])).1 rfl
  · simpa using (gateway_error_classification (vObj [("choices", vArr [vObj [("message",
      vObj [("refusal", vStr "nope"), ("content", vNull)])]])])).2.1 rfl rfl
  · exact (gateway_error_classification (vObj [("choices", vArr [vObj [("message",
      vObj [("content", vStr "")])]])])).2.2.1 (vStr "") rfl rfl rfl rfl
  · exact (gateway_error_classification (vObj [("choices", vArr [vObj [("message",
      vObj [("content", vStr "\x7b\"a\":1\x7d")])]])])).2.2.2.1
      (vStr "\x7b\"a\":1\x7d") (vObj [("a", vNum 1)]) rfl rfl rfl rfl rfl
  · exact (gateway_error_classification vNull).2.2.2.2.1 "anything"
  · exact (gateway_error_classification vNull).2.2.2.2.2 "sk-key" 500 "oops" (by decide)

theorem jsObjSet_append_of_not_mem :
    ∀ (acc : List (String × JSValue)) (key : String) (v : JSValue),
      key ∉ acc.map Prod.fst → jsObjSet acc key v = acc ++ [(key, v)] := by
  intro acc
  induction acc with
  | nil => intro key v _; rfl
  | cons p rest ih =>
      intro key v h
      obtain ⟨k, w⟩ := p
      simp only [List.map_cons, List.mem_cons, not_or] at h
      have hk : ¬(k = key) := fun hc => h.1 hc.symm
      simp [jsObjSet, hk, ih _ _ h.2]

theorem generateExampleFields_eq :
    ∀ (schema : List FieldDescriptor) (acc : List (String × JSValue)),
      (schema.map (fun item => jsString item.key)).Nodup →
      (∀ item ∈ schema, jsString item.key ∉ acc.map Prod.fst) →
      generateExampleFields schema acc =
        acc ++ schema.map (fun item => (jsString item.key, exampleValueForType item.type)) := by
  intro schema
  induction schema with
  | nil => intro acc _ _; simp [generateExampleFields]
  | cons item rest ih =>
      intro acc hnd hacc
      have hset : jsObjSet acc (jsString item.key) (exampleValueForType item.type) =
          acc ++ [(jsString item.key, exampleValueForType item.type)] :=
        jsObjSet_append_of_not_mem acc _ _ (hacc item (by simp))
      have hnd0 : jsString item.key ∉ rest.map (fun it => jsString it.key) ∧
          (rest.map (fun it => jsString it.key)).Nodup := by
        rw [List.map_cons, List.nodup_cons] at hnd
        exact hnd
      have hacc2 : ∀ it ∈ rest, jsString it.key ∉
          (acc ++ [(jsString item.key, exampleValueForType item.type)]).map Prod.fst := by
        intro it hit
        simp only [List.map_append, List.mem_append, not_or]
        refine ⟨hacc it (by simp [hit]), ?_⟩
        intro hmem
        simp only [List.map_cons, List.map_nil, List.mem_singleton] at hmem
        exact hnd0.1 (hmem ▸ List.mem_map_of_mem _ hit)
      simp [generateExampleFields, hset, ih _ hnd0.2 hacc2]

/-- C8: on a schema with pairwise-distinct keys, the example record is the
object pairing each key (in schema order) with the fixed literal its type
determines — "ABC" for string, 0 for number, false for boolean, the fixed
ISO date "2023-01-01" for date — and every unrecognized type cell gets the
"N/A" placeholder string. -/
theorem generateExampleObject_spec (schema : List FieldDescriptor)
    (hnd : (schema.map (fun item => jsString item.key)).Nodup) :
    generateExampleObject schema =
      vObj (schema.map (fun item => (jsString item.key, exampleValueForType item.type))) ∧
    exampleValueForType (vStr "string") = vStr "ABC" ∧
    exampleValueForType (vStr "number") = vNum 0 ∧
    exampleValueForType (vStr "boolean") = vBool false ∧
    exampleValueForType (vStr "date") = vStr "2023-01-01" ∧
    (∀ t, isValidTypeCell t = false → exampleValueForType t = vStr "N/A") := by
  refine ⟨?_, rfl, rfl, rfl, rfl, ?_⟩
  · simpa [generateExampleObject] using generateExampleFields_eq schema [] hnd (by simp)
  · intro t h
    cases t with
    | vStr s =>
        simp only [isValidTypeCell, Bool.or_eq_false_iff, beq_eq_false_iff_ne, ne_eq] at h
        obtain ⟨⟨⟨h1, h2⟩, h3⟩, h4⟩ := h
        simp [exampleValueForType, h1, h2, h3, h4]
    | vUndef => rfl
    | vNull => rfl
    | vBool b => rfl
    | vNum q => rfl
    | vArr xs => rfl
    | vObj fs => rfl

/-- Witness for C8 on a five-field schema covering every type and an
unrecognized one. -/
theorem generateExampleObject_spec_witness :
    generateExampleObject
        [⟨vStr "a", vUndef, vStr "string"⟩, ⟨vStr "b", vUndef, vStr "number"⟩,
         ⟨vStr "c", vUndef, vStr "boolean"⟩, ⟨vStr "d", vUndef, vStr "date"⟩,
         ⟨vStr "e", vUndef, vStr "mystery"⟩] =
      vObj [("a", vStr "ABC"), ("b", vNum 0), ("c", vBool false),
            ("d", vStr "2023-01-01"), ("e", vStr "N/A")] := by
  have h := (generateExampleObject_spec
      [⟨vStr "a", vUndef, vStr "string"⟩, ⟨vStr "b", vUndef, vStr "number"⟩,
       ⟨vStr "c", vUndef, vStr "boolean"⟩, ⟨vStr "d", vUndef, vStr "date"⟩,
       ⟨vStr "e", vUndef, vStr "mystery"⟩]
      (by simp [jsString])).1
  simpa [jsString, exampleValueForType] using h
